import Mathlib

/-!
# Particle background of `script.js`

A shallow embedding of section 2 of `script.js` (the particle background) and of
the top-level control flow of the script around it.

Modelling conventions.

* JavaScript numbers are modelled as rationals (`ℚ`): every finite binary64 value
  is one.  `NaN` and the infinities are outside this model.
* `Particle.update` adds exactly.  `Particle.updateWith` is the same method with
  the addition of lines 57-58 taken as a parameter, so that what is proved of it
  for every addition, or for every addition that rounds as binary64 does, holds
  of the rounded sums the script computes.
* `canvas.width`, `canvas.height`, `window.innerWidth` and `window.innerHeight`
  are non-negative integers in the DOM (`unsigned long` / pixel counts); they are
  modelled as `ℕ` and cast into `ℚ` where the script compares or multiplies them
  with a coordinate.
* `Math.random()` is modelled as reading the next element of a stream of
  rationals carried in the state.
* Calls on the 2D context and `requestAnimationFrame` are recorded, in order, in
  an effect trace.
-/

namespace ParticleBackground

/-! ## Data model -/

/-- The drawing surface: the two attributes of the canvas element the script reads
and writes. -/
structure Canvas where
  width : ℕ
  height : ℕ
  deriving DecidableEq, Repr

/-- The part of `window` the script reads. -/
structure Window where
  innerWidth : ℕ
  innerHeight : ℕ
  deriving DecidableEq, Repr

/-- The fields of `class Particle`. -/
structure Particle where
  x : ℚ
  y : ℚ
  size : ℚ
  speedX : ℚ
  speedY : ℚ
  color : String
  deriving DecidableEq, Repr

/-- The six values `reset()` obtains from `Math.random()`, in call order. -/
structure Draws where
  forX : ℚ
  forY : ℚ
  forSize : ℚ
  forSpeedX : ℚ
  forSpeedY : ℚ
  forColor : ℚ
  deriving DecidableEq, Repr

/-- A value `Math.random()` can return lies in `[0, 1)`. -/
def unitInterval (r : ℚ) : Prop := 0 ≤ r ∧ r < 1

instance (r : ℚ) : Decidable (unitInterval r) := by
  unfold unitInterval; infer_instance

/-- All six draws lie in `[0, 1)`. -/
def Draws.valid (d : Draws) : Prop :=
  unitInterval d.forX ∧ unitInterval d.forY ∧ unitInterval d.forSize ∧
  unitInterval d.forSpeedX ∧ unitInterval d.forSpeedY ∧ unitInterval d.forColor

instance (d : Draws) : Decidable d.valid := by
  unfold Draws.valid; infer_instance

/-- The two colours of `reset()`. -/
def palette : List String := ["#00f3ff", "#ffea00"]

/-! ## `class Particle` -/

/-- `Particle.reset()` (script.js 48-55): every field is overwritten from the six
draws and the current canvas size; the previous field values are not read. -/
def Particle.reset (canvas : Canvas) (d : Draws) (_p : Particle) : Particle :=
  { x := d.forX * canvas.width
    y := d.forY * canvas.height
    size := d.forSize * 2
    speedX := d.forSpeedX * (1 / 2) - 1 / 4
    speedY := d.forSpeedY * (1 / 2) - 1 / 4
    color := if d.forColor > 1 / 2 then "#00f3ff" else "#ffea00" }

/-- The object as it is when the constructor body starts: no field has been
assigned yet (every field is overwritten by `reset` before it is read). -/
def Particle.blank : Particle :=
  { x := 0, y := 0, size := 0, speedX := 0, speedY := 0, color := "" }

/-- The constructor `new Particle()` (script.js 45-47): it calls `this.reset()`. -/
def Particle.new (canvas : Canvas) (d : Draws) : Particle :=
  Particle.reset canvas d Particle.blank

/-- `Particle.update()` (script.js 56-65): add the speed, then the four
sequential wrap tests, each reading the coordinate as left by the previous one. -/
def Particle.update (canvas : Canvas) (p : Particle) : Particle :=
  let x := p.x + p.speedX
  let y := p.y + p.speedY
  let x := if x > (canvas.width : ℚ) then 0 else x
  let x := if x < 0 then (canvas.width : ℚ) else x
  let y := if y > (canvas.height : ℚ) then 0 else y
  let y := if y < 0 then (canvas.height : ℚ) else y
  { p with x := x, y := y }

/-- The two angle arguments that occur in the script's call of `ctx.arc`. -/
inductive Angle where
  | zero
  | twoPi
  deriving DecidableEq, Repr

/-- Observable calls on the 2D context and on the host's frame scheduler. -/
inductive Effect where
  | clearRect (x y w h : ℚ)
  | fillStyle (color : String)
  | beginPath
  | arc (x y radius : ℚ) (startAngle endAngle : Angle)
  | fill
  | requestAnimationFrame
  deriving DecidableEq, Repr

/-- The context calls of `Particle.draw()` (script.js 66-71), in order. -/
def Particle.drawCalls (p : Particle) : List Effect :=
  [Effect.fillStyle p.color, Effect.beginPath,
   Effect.arc p.x p.y p.size Angle.zero Angle.twoPi, Effect.fill]

/-- `Particle.draw()`: the four context calls are appended to the trace. -/
def Particle.draw (p : Particle) (trace : List Effect) : List Effect :=
  trace ++ p.drawCalls

/-- `Particle.update()` (script.js 56-65) with the addition of `this.x += this.speedX`
and `this.y += this.speedY` performed by `sum`; the four wrap tests are those of
`Particle.update`.  The script's own addition is binary64 addition. -/
def Particle.updateWith (sum : ℚ → ℚ → ℚ) (canvas : Canvas) (p : Particle) : Particle :=
  let x := sum p.x p.speedX
  let y := sum p.y p.speedY
  let x := if x > (canvas.width : ℚ) then 0 else x
  let x := if x < 0 then (canvas.width : ℚ) else x
  let y := if y > (canvas.height : ℚ) then 0 else y
  let y := if y < 0 then (canvas.height : ℚ) else y
  { p with x := x, y := y }

/-- The finite binary64 values: `m * 2 ^ e` with `|m| < 2 ^ 53` and
`-1074 ≤ e ≤ 971`. -/
def Binary64 (q : ℚ) : Prop :=
  ∃ m e : ℤ, |m| < 2 ^ 53 ∧ -1074 ≤ e ∧ e ≤ 971 ∧ q = (m : ℚ) * (2 : ℚ) ^ e

/-- What is assumed of a rounding addition: its result never lies on the other
side of a binary64 value than the exact sum.  Every rounding that is monotone and
leaves binary64 values fixed has this property, binary64 round-to-nearest among
them; in particular a sum that is itself a binary64 value is returned exactly. -/
def RoundedSum (sum : ℚ → ℚ → ℚ) : Prop :=
  ∀ a b r : ℚ, Binary64 r → (r ≤ a + b → r ≤ sum a b) ∧ (a + b ≤ r → sum a b ≤ r)

/-- An addition that rounds: an exact sum strictly between `800 - 2 ^ (-44)` and
`800 + 2 ^ (-44)` is returned as 800, as binary64 round-to-nearest does (the
binary64 neighbours of 800 are `800 - 2 ^ (-43)` and `800 + 2 ^ (-43)`); every
other sum is returned exactly. -/
def sampleSum (a b : ℚ) : ℚ :=
  if 800 - 1 / 2 ^ 44 < a + b ∧ a + b < 800 + 1 / 2 ^ 44 then 800 else a + b

/-! ## The particle field and the render loop -/

/-- The mutable state of section 2 of the script, together with what the host
contributes: the current viewport, the stream behind `Math.random()` and the
trace of context and scheduler calls made so far. -/
structure World where
  window : Window
  isMobile : Bool
  canvas : Canvas
  particles : List Particle
  trace : List Effect
  random : ℕ → ℚ
  drawn : ℕ

/-- The constant `isMobile` (script.js 37). -/
def detectMobile (window : Window) : Bool := decide (window.innerWidth < 768)

/-- The function `resizeCanvas()` (script.js 39-42). -/
def resizeCanvas (s : World) : World :=
  { s with canvas := { width := s.window.innerWidth, height := s.window.innerHeight } }

/-- The next six values of `Math.random()`, in call order. -/
def World.nextDraws (s : World) : Draws :=
  { forX := s.random s.drawn
    forY := s.random (s.drawn + 1)
    forSize := s.random (s.drawn + 2)
    forSpeedX := s.random (s.drawn + 3)
    forSpeedY := s.random (s.drawn + 4)
    forColor := s.random (s.drawn + 5) }

/-- One body of the loop of `initParticles`: `particles.push(new Particle())`. -/
def pushParticle (s : World) : World :=
  { s with
    particles := s.particles ++ [Particle.new s.canvas s.nextDraws]
    drawn := s.drawn + 6 }

/-- The loop `for (let i = 0; i < 50; i++)` of `initParticles`, with `n` bodies
still to run. -/
def pushParticles : ℕ → World → World
  | 0, s => s
  | n + 1, s => pushParticles n (pushParticle s)

/-- The callback of `particles.forEach` in `animateParticles`, run over the list
from its head: each particle is updated in place and then drawn. -/
def forEachParticle (canvas : Canvas) : List Particle → List Effect → List Particle × List Effect
  | [], trace => ([], trace)
  | p :: rest, trace =>
    let q := p.update canvas
    let out := forEachParticle canvas rest (q.draw trace)
    (q :: out.1, out.2)

/-- The function `animateParticles()` (script.js 87-95): a single invocation.  The
frame it requests is recorded in the trace; the host runs it as a later
invocation. -/
def animateParticles (s : World) : World :=
  if s.isMobile then s
  else
    let cleared := s.trace ++ [Effect.clearRect 0 0 s.canvas.width s.canvas.height]
    let out := forEachParticle s.canvas s.particles cleared
    { s with particles := out.1, trace := out.2 ++ [Effect.requestAnimationFrame] }

/-- The function `initParticles()` (script.js 74-85). -/
def initParticles (s : World) : World :=
  if s.isMobile then s
  else
    let s := resizeCanvas s
    let s := { s with particles := [] }
    let s := pushParticles 50 s
    animateParticles s

/-- The listener registered for `resize` (script.js 99-101). -/
def onResize (s : World) : World :=
  if !s.isMobile then resizeCanvas s else s

/-- What the host does after the script has run: it runs a requested frame, or
it changes the viewport and fires `resize`. -/
inductive HostEvent where
  | frame
  | resize (window : Window)
  deriving DecidableEq, Repr

/-- The reaction of the script to one host event. -/
def handle (s : World) : HostEvent → World
  | HostEvent.frame => animateParticles s
  | HostEvent.resize window => onResize { s with window := window }

/-- The reactions to a sequence of host events, oldest first. -/
def handleAll (s : World) (events : List HostEvent) : World :=
  events.foldl handle s

/-! ## The script as a whole -/

/-- What the script finds in the page and the host when it runs. -/
structure Page where
  window : Window
  particleCanvas : Option Canvas
  mobileBtn : Bool
  navLinks : Bool
  menuLinks : ℕ
  random : ℕ → ℚ

/-- What the top level of the script installs, in order. -/
inductive Registration where
  | scrollSync
  | resizeListener
  | loadListener
  | tiltInit
  | menuButtonClick
  | menuLinkClick
  deriving DecidableEq, Repr

/-- An exception that leaves the top level of the script. -/
inductive ScriptError where
  | nullCanvas
  deriving DecidableEq, Repr

/-- The state after the script has run to its end. -/
structure Session where
  world : World
  registered : List Registration

/-- The values of the globals of section 2 after script.js 31-37, before the call
of `initParticles`. -/
def bootWorld (page : Page) (canvas : Canvas) : World :=
  { window := page.window
    isMobile := detectMobile page.window
    canvas := canvas
    particles := []
    trace := []
    random := page.random
    drawn := 0 }

/-- The top level of `script.js`.  Section 1 (lines 4-25) installs the scroll
synchronisation.  Line 32 calls `canvas.getContext` on the result of
`getElementById`, which raises when the element is absent; nothing catches it,
so the script stops there.  Otherwise lines 98-254 run: `initParticles()`, the
`resize` and `load` listeners, the tilt initialisation unless `isMobile`, and the
menu handlers when both menu elements exist. -/
def runScript (page : Page) : Except ScriptError Session :=
  let registered := [Registration.scrollSync]
  match page.particleCanvas with
  | none => Except.error ScriptError.nullCanvas
  | some canvas =>
    let s := bootWorld page canvas
    let s := initParticles s
    let registered := registered ++ [Registration.resizeListener, Registration.loadListener]
    let registered := if !s.isMobile then registered ++ [Registration.tiltInit] else registered
    let registered :=
      if page.mobileBtn && page.navLinks then
        registered ++ [Registration.menuButtonClick] ++
          List.replicate page.menuLinks Registration.menuLinkClick
      else registered
    Except.ok { world := s, registered := registered }

/-! ## Predicates used in the statements -/

/-- The particle states the script can produce: the result of a `reset()` whose
draws lie in `[0, 1)`, on any canvas and from any earlier state, and the result
of an `update()` of such a state, on any canvas. -/
inductive Reachable : Particle → Prop where
  | reset (canvas : Canvas) (d : Draws) (p : Particle) (h : d.valid) :
      Reachable (Particle.reset canvas d p)
  | update (canvas : Canvas) (p : Particle) (h : Reachable p) :
      Reachable (p.update canvas)

/-- Recognises a call of `clearRect`. -/
def Effect.isClear : Effect → Bool
  | Effect.clearRect _ _ _ _ => true
  | _ => false

/-- Recognises a call of `arc`: one per `draw()`. -/
def Effect.isArc : Effect → Bool
  | Effect.arc _ _ _ _ _ => true
  | _ => false

/-- Recognises a call of `requestAnimationFrame`. -/
def Effect.isFrameRequest : Effect → Bool
  | Effect.requestAnimationFrame => true
  | _ => false

/-- The calls an invocation added to the trace of `before`. -/
def emitted (before after : World) : List Effect :=
  after.trace.drop before.trace.length

/-! ## Sample inputs -/

/-- An 800 x 600 surface. -/
def sampleCanvas : Canvas := { width := 800, height := 600 }

/-- Six draws in `[0, 1)`. -/
def sampleDraws : Draws :=
  { forX := 1 / 8, forY := 1 / 2, forSize := 3 / 4, forSpeedX := 0, forSpeedY := 9 / 10,
    forColor := 3 / 5 }

/-- A desktop state with two particles and an empty trace. -/
def sampleWorld : World :=
  { window := { innerWidth := 1024, innerHeight := 768 }
    isMobile := false
    canvas := sampleCanvas
    particles :=
      [Particle.new sampleCanvas sampleDraws,
       { x := 1 / 10, y := 50, size := 1, speedX := -1 / 2, speedY := 0, color := "#ffea00" }]
    trace := []
    random := fun i => 1 / ((i : ℚ) + 2)
    drawn := 0 }

/-- A page with a 300 x 150 canvas element and a viewport of the given width. -/
def samplePage (innerWidth : ℕ) : Page :=
  { window := { innerWidth := innerWidth, innerHeight := 900 }
    particleCanvas := some { width := 300, height := 150 }
    mobileBtn := true
    navLinks := true
    menuLinks := 4
    random := fun i => 1 / ((i : ℚ) + 2) }

/-! ## Lemmas on `update` -/

theorem wrap_bounds (w : ℕ) (v : ℚ) :
    let a := if v > (w : ℚ) then 0 else v
    0 ≤ (if a < 0 then (w : ℚ) else a) ∧ (if a < 0 then (w : ℚ) else a) ≤ (w : ℚ) := by
  have hw : (0 : ℚ) ≤ (w : ℚ) := Nat.cast_nonneg w
  intro a
  by_cases h1 : v > (w : ℚ)
  · have ha : a = 0 := if_pos h1
    simp [ha, hw]
  · have ha : a = v := if_neg h1
    rw [ha]
    by_cases h2 : v < 0
    · simp [h2, hw]
    · simp only [if_neg h2]
      exact ⟨not_lt.mp h2, not_lt.mp h1⟩

theorem update_bounds (canvas : Canvas) (p : Particle) :
    0 ≤ (p.update canvas).x ∧ (p.update canvas).x ≤ canvas.width ∧
    0 ≤ (p.update canvas).y ∧ (p.update canvas).y ≤ canvas.height := by
  have hx := wrap_bounds canvas.width (p.x + p.speedX)
  have hy := wrap_bounds canvas.height (p.y + p.speedY)
  exact ⟨hx.1, hx.2, hy.1, hy.2⟩

theorem wrap_piecewise (w : ℕ) (v : ℚ) :
    let a := if v > (w : ℚ) then 0 else v
    (if a < 0 then (w : ℚ) else a) =
      if v < 0 then (w : ℚ) else if (w : ℚ) < v then 0 else v := by
  have hw : (0 : ℚ) ≤ (w : ℚ) := Nat.cast_nonneg w
  intro a
  by_cases h1 : v > (w : ℚ)
  · have ha : a = 0 := if_pos h1
    have h0 : ¬ v < 0 := not_lt.mpr (le_trans hw (le_of_lt h1))
    rw [ha, if_neg h0, if_pos h1]
    simp
  · have ha : a = v := if_neg h1
    rw [ha]
    by_cases h2 : v < 0
    · rw [if_pos h2, if_pos h2]
    · rw [if_neg h2, if_neg h2, if_neg h1]

theorem wrap_above (w : ℕ) (v : ℚ) (h : (w : ℚ) < v) :
    (let a := if v > (w : ℚ) then 0 else v
     if a < 0 then (w : ℚ) else a) = 0 := by
  rw [wrap_piecewise]
  have hw : (0 : ℚ) ≤ (w : ℚ) := Nat.cast_nonneg w
  rw [if_neg (not_lt.mpr (le_trans hw (le_of_lt h))), if_pos h]

theorem wrap_below (w : ℕ) (v : ℚ) (h : v < 0) :
    (let a := if v > (w : ℚ) then 0 else v
     if a < 0 then (w : ℚ) else a) = (w : ℚ) := by
  rw [wrap_piecewise, if_pos h]

theorem wrap_inside (w : ℕ) (v : ℚ) (h0 : 0 ≤ v) (h1 : v ≤ (w : ℚ)) :
    (let a := if v > (w : ℚ) then 0 else v
     if a < 0 then (w : ℚ) else a) = v := by
  rw [wrap_piecewise, if_neg (not_lt.mpr h0), if_neg (not_lt.mpr h1)]

theorem updateWith_exact (canvas : Canvas) (p : Particle) :
    Particle.updateWith (fun a b => a + b) canvas p = p.update canvas := rfl

theorem updateWith_bounds (sum : ℚ → ℚ → ℚ) (canvas : Canvas) (p : Particle) :
    0 ≤ (Particle.updateWith sum canvas p).x ∧
    (Particle.updateWith sum canvas p).x ≤ canvas.width ∧
    0 ≤ (Particle.updateWith sum canvas p).y ∧
    (Particle.updateWith sum canvas p).y ≤ canvas.height := by
  have hx := wrap_bounds canvas.width (sum p.x p.speedX)
  have hy := wrap_bounds canvas.height (sum p.y p.speedY)
  exact ⟨hx.1, hx.2, hy.1, hy.2⟩

theorem updateWith_x_eq (sum : ℚ → ℚ → ℚ) (canvas : Canvas) (p : Particle) :
    (Particle.updateWith sum canvas p).x =
      if sum p.x p.speedX < 0 then (canvas.width : ℚ)
      else if (canvas.width : ℚ) < sum p.x p.speedX then 0 else sum p.x p.speedX :=
  wrap_piecewise canvas.width (sum p.x p.speedX)

theorem updateWith_y_eq (sum : ℚ → ℚ → ℚ) (canvas : Canvas) (p : Particle) :
    (Particle.updateWith sum canvas p).y =
      if sum p.y p.speedY < 0 then (canvas.height : ℚ)
      else if (canvas.height : ℚ) < sum p.y p.speedY then 0 else sum p.y p.speedY :=
  wrap_piecewise canvas.height (sum p.y p.speedY)

theorem roundedSum_exact (sum : ℚ → ℚ → ℚ) (h : RoundedSum sum) (a b : ℚ)
    (hab : Binary64 (a + b)) : sum a b = a + b := by
  obtain ⟨h1, h2⟩ := h a b (a + b) hab
  exact le_antisymm (h2 le_rfl) (h1 le_rfl)

theorem binary64_of_int_mul_zpow (m e : ℤ) (q : ℚ) (hm : |m| < 2 ^ 53) (he1 : -1074 ≤ e)
    (he2 : e ≤ 971) (hq : q = (m : ℚ) * (2 : ℚ) ^ e) : Binary64 q :=
  ⟨m, e, hm, he1, he2, hq⟩

theorem binary64_near_800 (r : ℚ) (hr : Binary64 r) (h1 : 800 - 1 / 2 ^ 44 < r)
    (h2 : r < 800 + 1 / 2 ^ 44) : r = 800 := by
  obtain ⟨m, e, hm, -, -, rfl⟩ := hr
  have hpow : (0 : ℚ) < (2 : ℚ) ^ e := zpow_pos (by norm_num) e
  have hmpos : (0 : ℚ) < (m : ℚ) := by
    by_contra hneg
    have hle : (m : ℚ) * (2 : ℚ) ^ e ≤ 0 :=
      mul_nonpos_of_nonpos_of_nonneg (not_lt.mp hneg) (le_of_lt hpow)
    have h799 : (799 : ℚ) < 800 - 1 / 2 ^ 44 := by norm_num
    linarith
  have hmlt : (m : ℚ) < 2 ^ 53 := by
    have hlt := (abs_lt.mp hm).2
    exact_mod_cast hlt
  by_cases he : e ≤ -44
  · exfalso
    have hle : (2 : ℚ) ^ e ≤ (2 : ℚ) ^ (-44 : ℤ) := zpow_le_zpow_right₀ (by norm_num) he
    have h44 : (2 : ℚ) ^ (-44 : ℤ) = 1 / 2 ^ 44 := by norm_num [zpow_neg]
    have hmul : (m : ℚ) * (2 : ℚ) ^ e ≤ (m : ℚ) * (1 / 2 ^ 44) := by
      rw [← h44]
      exact mul_le_mul_of_nonneg_left hle (le_of_lt hmpos)
    have h3 : (800 : ℚ) - 1 / 2 ^ 44 < (m : ℚ) * (1 / 2 ^ 44) := lt_of_lt_of_le h1 hmul
    have h4 : (m : ℚ) * (1 / 2 ^ 44) < 2 ^ 53 * (1 / 2 ^ 44) :=
      mul_lt_mul_of_pos_right hmlt (by norm_num)
    norm_num at h3 h4
    linarith
  · have hk : 0 ≤ e + 43 := by omega
    obtain ⟨k, hk2⟩ := Int.eq_ofNat_of_zero_le hk
    have hsplit : (2 : ℚ) ^ e = (2 : ℚ) ^ k * (1 / 2 ^ 43) := by
      have hek : e = (k : ℤ) + (-43) := by omega
      rw [hek, zpow_add₀ (by norm_num : (2 : ℚ) ≠ 0), zpow_natCast]
      norm_num [zpow_neg]
    rw [hsplit] at h1 h2 ⊢
    have q1 : (800 : ℚ) * 2 ^ 43 - 1 < (m : ℚ) * 2 ^ k := by
      have hmul := mul_lt_mul_of_pos_right h1 (by norm_num : (0 : ℚ) < 2 ^ 43)
      calc (800 : ℚ) * 2 ^ 43 - 1 ≤ (800 - 1 / 2 ^ 44) * 2 ^ 43 := by norm_num
        _ < (m : ℚ) * ((2 : ℚ) ^ k * (1 / 2 ^ 43)) * 2 ^ 43 := hmul
        _ = (m : ℚ) * 2 ^ k := by ring
    have q2 : (m : ℚ) * 2 ^ k < 800 * 2 ^ 43 + 1 := by
      have hmul := mul_lt_mul_of_pos_right h2 (by norm_num : (0 : ℚ) < 2 ^ 43)
      calc (m : ℚ) * 2 ^ k = (m : ℚ) * ((2 : ℚ) ^ k * (1 / 2 ^ 43)) * 2 ^ 43 := by ring
        _ < (800 + 1 / 2 ^ 44) * 2 ^ 43 := hmul
        _ ≤ 800 * 2 ^ 43 + 1 := by norm_num
    have g1 : (800 * 2 ^ 43 - 1 : ℤ) < m * 2 ^ k := by
      have hq : ((800 * 2 ^ 43 - 1 : ℤ) : ℚ) < ((m * 2 ^ k : ℤ) : ℚ) := by
        push_cast
        linarith
      exact_mod_cast hq
    have g2 : m * 2 ^ k < (800 * 2 ^ 43 + 1 : ℤ) := by
      have hq : ((m * 2 ^ k : ℤ) : ℚ) < ((800 * 2 ^ 43 + 1 : ℤ) : ℚ) := by
        push_cast
        linarith
      exact_mod_cast hq
    have g3 : m * 2 ^ k = (800 * 2 ^ 43 : ℤ) := by omega
    have g4 : (m : ℚ) * 2 ^ k = 800 * 2 ^ 43 := by exact_mod_cast g3
    calc (m : ℚ) * ((2 : ℚ) ^ k * (1 / 2 ^ 43)) = (m : ℚ) * 2 ^ k * (1 / 2 ^ 43) := by ring
      _ = 800 * 2 ^ 43 * (1 / 2 ^ 43) := by rw [g4]
      _ = 800 := by norm_num

theorem sampleSum_rounded : RoundedSum sampleSum := by
  intro a b r hr
  unfold sampleSum
  by_cases hab : 800 - 1 / 2 ^ 44 < a + b ∧ a + b < 800 + 1 / 2 ^ 44
  · rw [if_pos hab]
    refine ⟨fun hle => ?_, fun hle => ?_⟩
    · by_contra hgt
      have hr800 := binary64_near_800 r hr (by linarith [not_le.mp hgt, hab.1])
        (by linarith [hab.2])
      exact hgt (le_of_eq hr800)
    · by_contra hlt
      have hr800 := binary64_near_800 r hr (by linarith [hab.1])
        (by linarith [not_le.mp hlt])
      exact hlt (le_of_eq hr800.symm)
  · rw [if_neg hab]
    exact ⟨id, id⟩

theorem wrap_eq_extent_iff (w : ℕ) (v : ℚ) :
    (if v < 0 then (w : ℚ) else if (w : ℚ) < v then 0 else v) = (w : ℚ) ↔
      (v < 0 ∨ v = (w : ℚ) ∨ w = 0) := by
  by_cases h2 : v < 0
  · simp [h2]
  · by_cases h1 : (w : ℚ) < v
    · have hne : v ≠ (w : ℚ) := ne_of_gt h1
      simp only [if_neg h2, if_pos h1, h2, hne, false_or]
      constructor
      · intro h
        exact_mod_cast h.symm
      · intro h
        simp [h]
    · simp only [if_neg h2, if_neg h1, h2, false_or]
      constructor
      · intro h
        exact Or.inl h
      · rintro (h | h)
        · exact h
        · subst h
          simp only [Nat.cast_zero] at h1 h2 ⊢
          exact le_antisymm (not_lt.mp h1) (not_lt.mp h2)

/-! ## Claims on `Particle.update` -/

/-- C1 (wraparound invariant): for every particle state, inside or outside the
surface and with any velocity, and every surface, the position after
`update()` satisfies `0 ≤ x ≤ canvas.width` and `0 ≤ y ≤ canvas.height`; the
same holds after any positive number of successive updates. -/
theorem update_wraparound_invariant (canvas : Canvas) (p : Particle) :
    (0 ≤ (p.update canvas).x ∧ (p.update canvas).x ≤ canvas.width ∧
      0 ≤ (p.update canvas).y ∧ (p.update canvas).y ≤ canvas.height) ∧
    ∀ n : ℕ,
      0 ≤ ((Particle.update canvas)^[n + 1] p).x ∧
      ((Particle.update canvas)^[n + 1] p).x ≤ canvas.width ∧
      0 ≤ ((Particle.update canvas)^[n + 1] p).y ∧
      ((Particle.update canvas)^[n + 1] p).y ≤ canvas.height := by
  refine ⟨update_bounds canvas p, fun n => ?_⟩
  rw [Function.iterate_succ_apply']
  exact update_bounds canvas _

/-- C2, as stated, fails: a particle at x = 0.1 with speedX = -0.5 on an
800 x 600 surface is at x = 800 after `update()`, which is not below the width. -/
theorem update_half_open_box_fails :
    ¬ ((Particle.update { width := 800, height := 600 }
          { x := 1 / 10, y := 50, size := 1, speedX := -1 / 2, speedY := 0,
            color := "#00f3ff" }).x < ((800 : ℕ) : ℚ)) := by
  norm_num [Particle.update]

/-- C2 (amended): after each `update()` the position lies in the closed box
`[0, width] x [0, height]`, whatever the addition of lines 57-58 returns.  On
each axis the coordinate equals the extent exactly when the advanced coordinate
as the method computed it (the possibly rounded sum) is negative, or equals the
extent, or the extent is 0, and is strictly below the extent in every other
case. -/
theorem update_closed_box (sum : ℚ → ℚ → ℚ) (canvas : Canvas) (p : Particle) :
    (0 ≤ (Particle.updateWith sum canvas p).x ∧
      (Particle.updateWith sum canvas p).x ≤ canvas.width ∧
      0 ≤ (Particle.updateWith sum canvas p).y ∧
      (Particle.updateWith sum canvas p).y ≤ canvas.height) ∧
    ((Particle.updateWith sum canvas p).x = canvas.width ↔
      (sum p.x p.speedX < 0 ∨ sum p.x p.speedX = canvas.width ∨ canvas.width = 0)) ∧
    ((Particle.updateWith sum canvas p).y = canvas.height ↔
      (sum p.y p.speedY < 0 ∨ sum p.y p.speedY = canvas.height ∨ canvas.height = 0)) ∧
    ((Particle.updateWith sum canvas p).x < canvas.width ↔
      ¬ (sum p.x p.speedX < 0 ∨ sum p.x p.speedX = canvas.width ∨ canvas.width = 0)) ∧
    ((Particle.updateWith sum canvas p).y < canvas.height ↔
      ¬ (sum p.y p.speedY < 0 ∨ sum p.y p.speedY = canvas.height ∨ canvas.height = 0)) := by
  have hb := updateWith_bounds sum canvas p
  have hx : (Particle.updateWith sum canvas p).x = canvas.width ↔
      (sum p.x p.speedX < 0 ∨ sum p.x p.speedX = canvas.width ∨ canvas.width = 0) := by
    rw [updateWith_x_eq]
    exact wrap_eq_extent_iff canvas.width (sum p.x p.speedX)
  have hy : (Particle.updateWith sum canvas p).y = canvas.height ↔
      (sum p.y p.speedY < 0 ∨ sum p.y p.speedY = canvas.height ∨ canvas.height = 0) := by
    rw [updateWith_y_eq]
    exact wrap_eq_extent_iff canvas.height (sum p.y p.speedY)
  refine ⟨hb, hx, hy, ?_, ?_⟩
  · rw [← hx, lt_iff_le_and_ne]
    exact ⟨fun h => h.2, fun h => ⟨hb.2.1, h⟩⟩
  · rw [← hy, lt_iff_le_and_ne]
    exact ⟨fun h => h.2, fun h => ⟨hb.2.2.2, h⟩⟩

/-- Witness of C2 (amended) with an addition that rounds: at x = 800 - 2 ^ (-43)
with speedX = 3 * 2 ^ (-45) on width 800 the sum rounds onto 800, the extent, and
the coordinate after `update()` is the extent. -/
theorem update_closed_box_witness :
    sampleSum (800 - 1 / 2 ^ 43) (3 / 2 ^ 45) = 800 ∧
    (Particle.updateWith sampleSum { width := 800, height := 600 }
        { x := 800 - 1 / 2 ^ 43, y := 50, size := 1, speedX := 3 / 2 ^ 45, speedY := 0,
          color := "#00f3ff" }).x = ((800 : ℕ) : ℚ) :=
  ⟨by norm_num [sampleSum],
    (update_closed_box sampleSum { width := 800, height := 600 }
      { x := 800 - 1 / 2 ^ 43, y := 50, size := 1, speedX := 3 / 2 ^ 45, speedY := 0,
        color := "#00f3ff" }).2.1.mpr (Or.inr (Or.inl (by norm_num [sampleSum])))⟩

/-- C3 (velocity invariant): `update()` leaves speedX, speedY, size and color
exactly as they were, for every particle state and surface, wrapped or not. -/
theorem update_preserves_velocity (canvas : Canvas) (p : Particle) :
    (p.update canvas).speedX = p.speedX ∧ (p.update canvas).speedY = p.speedY ∧
    (p.update canvas).size = p.size ∧ (p.update canvas).color = p.color ∧
    p.update canvas = { p with x := (p.update canvas).x, y := (p.update canvas).y } :=
  ⟨rfl, rfl, rfl, rfl, rfl⟩

/-- C7 (toroidal update rule): for every addition that rounds as binary64 does,
every particle and every surface, `update()` sets each axis independently to the
piecewise value of p, the sum coordinate + speed as the method computed it: the
extent when p < 0, 0 when p > extent, and p itself otherwise (0 ≤ p ≤ extent).
The three scenarios: (100, 100) with speed (0.25, 0) on 800 x 600 becomes
(100.25, 100); x = 799.9 with speedX = 0.5 on width 800 becomes x = 0; x = 0.1
with speedX = -0.5 on width 800 becomes x = 800. -/
theorem update_toroidal_rule (sum : ℚ → ℚ → ℚ) (hsum : RoundedSum sum) (canvas : Canvas)
    (p : Particle) :
    ((Particle.updateWith sum canvas p).x =
      if sum p.x p.speedX < 0 then (canvas.width : ℚ)
      else if (canvas.width : ℚ) < sum p.x p.speedX then 0 else sum p.x p.speedX) ∧
    ((Particle.updateWith sum canvas p).y =
      if sum p.y p.speedY < 0 then (canvas.height : ℚ)
      else if (canvas.height : ℚ) < sum p.y p.speedY then 0 else sum p.y p.speedY) ∧
    ((Particle.updateWith sum { width := 800, height := 600 }
        { p with x := 100, y := 100, speedX := 1 / 4, speedY := 0 }).x = 401 / 4 ∧
      (Particle.updateWith sum { width := 800, height := 600 }
        { p with x := 100, y := 100, speedX := 1 / 4, speedY := 0 }).y = 100) ∧
    (Particle.updateWith sum { canvas with width := 800 }
        { p with x := 7999 / 10, y := 50, speedX := 1 / 2 }).x = 0 ∧
    (Particle.updateWith sum { canvas with width := 800 }
        { p with x := 1 / 10, y := 50, speedX := -1 / 2 }).x = 800 := by
  have b1 : Binary64 ((100 : ℚ) + 1 / 4) :=
    binary64_of_int_mul_zpow 401 (-2) _ (by norm_num) (by norm_num) (by norm_num)
      (by norm_num [zpow_neg])
  have b2 : Binary64 ((100 : ℚ) + 0) :=
    binary64_of_int_mul_zpow 100 0 _ (by norm_num) (by norm_num) (by norm_num) (by norm_num)
  have b3 : Binary64 (3201 / 4 : ℚ) :=
    binary64_of_int_mul_zpow 3201 (-2) _ (by norm_num) (by norm_num) (by norm_num)
      (by norm_num [zpow_neg])
  have b4 : Binary64 (-(1 / 4) : ℚ) :=
    binary64_of_int_mul_zpow (-1) (-2) _ (by norm_num) (by norm_num) (by norm_num)
      (by norm_num [zpow_neg])
  have s1 : sum 100 (1 / 4) = 401 / 4 := by
    rw [roundedSum_exact sum hsum 100 (1 / 4) b1]
    norm_num
  have s2 : sum 100 0 = 100 := by
    rw [roundedSum_exact sum hsum 100 0 b2]
    norm_num
  have s3 : (3201 / 4 : ℚ) ≤ sum (7999 / 10) (1 / 2) :=
    (hsum (7999 / 10) (1 / 2) (3201 / 4) b3).1 (by norm_num)
  have s4 : sum (1 / 10) (-1 / 2) ≤ -(1 / 4) :=
    (hsum (1 / 10) (-1 / 2) (-(1 / 4)) b4).2 (by norm_num)
  refine ⟨updateWith_x_eq sum canvas p, updateWith_y_eq sum canvas p, ⟨?_, ?_⟩, ?_, ?_⟩
  · exact (wrap_inside 800 (sum 100 (1 / 4)) (by rw [s1]; norm_num)
      (by rw [s1]; norm_num)).trans s1
  · exact (wrap_inside 600 (sum 100 0) (by rw [s2]; norm_num) (by rw [s2]; norm_num)).trans s2
  · exact wrap_above 800 (sum (7999 / 10) (1 / 2)) (by push_cast; linarith)
  · have h := wrap_below 800 (sum (1 / 10) (-1 / 2)) (by linarith)
    have h800 : ((800 : ℕ) : ℚ) = 800 := by norm_num
    rw [h800] at h
    exact h

/-- Witness of C7 with an addition that rounds: at x = 800 with speedX = 2 ^ (-54)
on width 800 the sum rounds to 800, which is not above the width, so the
coordinate stays 800. -/
theorem update_toroidal_rule_witness :
    RoundedSum sampleSum ∧
    (Particle.updateWith sampleSum { width := 800, height := 600 }
        { x := 800, y := 50, size := 1, speedX := 1 / 2 ^ 54, speedY := 0,
          color := "#00f3ff" }).x = 800 :=
  ⟨sampleSum_rounded, by
    rw [(update_toroidal_rule sampleSum sampleSum_rounded { width := 800, height := 600 }
      { x := 800, y := 50, size := 1, speedX := 1 / 2 ^ 54, speedY := 0,
        color := "#00f3ff" }).1]
    norm_num [sampleSum]⟩

/-! ## Claims on `Particle.reset` and `Particle.draw` -/

/-- C4 (reset bounds): for every prior state, every surface of positive width and
height and every six draws in `[0, 1)`, after `reset()` size is in `[0, 2)`,
speedX and speedY are in `[-0.25, 0.25)`, color is one of '#00f3ff' and
'#ffea00', and the position is in `[0, width) x [0, height)`; the result does
not depend on the prior state, so a reset after any sequence of earlier resets
gives the same, bounded, result. -/
theorem reset_bounds (canvas : Canvas) (d : Draws) (p : Particle)
    (hw : 0 < canvas.width) (hh : 0 < canvas.height) (hd : d.valid) :
    (0 ≤ (Particle.reset canvas d p).size ∧ (Particle.reset canvas d p).size < 2) ∧
    (-(1 / 4) ≤ (Particle.reset canvas d p).speedX ∧
      (Particle.reset canvas d p).speedX < 1 / 4) ∧
    (-(1 / 4) ≤ (Particle.reset canvas d p).speedY ∧
      (Particle.reset canvas d p).speedY < 1 / 4) ∧
    ((Particle.reset canvas d p).color = "#00f3ff" ∨
      (Particle.reset canvas d p).color = "#ffea00") ∧
    (0 ≤ (Particle.reset canvas d p).x ∧ (Particle.reset canvas d p).x < canvas.width) ∧
    (0 ≤ (Particle.reset canvas d p).y ∧ (Particle.reset canvas d p).y < canvas.height) ∧
    (∀ q : Particle, Particle.reset canvas d q = Particle.reset canvas d p) ∧
    (∀ earlier : List Draws,
      Particle.reset canvas d (earlier.foldl (fun q e => Particle.reset canvas e q) p) =
        Particle.reset canvas d p) := by
  obtain ⟨⟨hx0, hx1⟩, ⟨hy0, hy1⟩, ⟨hs0, hs1⟩, ⟨ha0, ha1⟩, ⟨hb0, hb1⟩, -⟩ := hd
  have hwq : (0 : ℚ) < (canvas.width : ℚ) := by exact_mod_cast hw
  have hhq : (0 : ℚ) < (canvas.height : ℚ) := by exact_mod_cast hh
  refine ⟨⟨?_, ?_⟩, ⟨?_, ?_⟩, ⟨?_, ?_⟩, ?_, ⟨?_, ?_⟩, ⟨?_, ?_⟩, fun _ => rfl, fun _ => rfl⟩
  · show 0 ≤ d.forSize * 2
    linarith
  · show d.forSize * 2 < 2
    linarith
  · show -(1 / 4) ≤ d.forSpeedX * (1 / 2) - 1 / 4
    linarith
  · show d.forSpeedX * (1 / 2) - 1 / 4 < 1 / 4
    linarith
  · show -(1 / 4) ≤ d.forSpeedY * (1 / 2) - 1 / 4
    linarith
  · show d.forSpeedY * (1 / 2) - 1 / 4 < 1 / 4
    linarith
  · show (if d.forColor > 1 / 2 then "#00f3ff" else "#ffea00") = "#00f3ff" ∨
      (if d.forColor > 1 / 2 then "#00f3ff" else "#ffea00") = "#ffea00"
    by_cases h : d.forColor > 1 / 2
    · exact Or.inl (if_pos h)
    · exact Or.inr (if_neg h)
  · show 0 ≤ d.forX * (canvas.width : ℚ)
    exact mul_nonneg hx0 (le_of_lt hwq)
  · show d.forX * (canvas.width : ℚ) < (canvas.width : ℚ)
    calc d.forX * (canvas.width : ℚ) < 1 * (canvas.width : ℚ) :=
          mul_lt_mul_of_pos_right hx1 hwq
      _ = (canvas.width : ℚ) := one_mul _
  · show 0 ≤ d.forY * (canvas.height : ℚ)
    exact mul_nonneg hy0 (le_of_lt hhq)
  · show d.forY * (canvas.height : ℚ) < (canvas.height : ℚ)
    calc d.forY * (canvas.height : ℚ) < 1 * (canvas.height : ℚ) :=
          mul_lt_mul_of_pos_right hy1 hhq
      _ = (canvas.height : ℚ) := one_mul _

/-- Witness of C4 on the 800 x 600 sample surface with the sample draws. -/
theorem reset_bounds_witness :
    (0 < sampleCanvas.width ∧ 0 < sampleCanvas.height ∧ sampleDraws.valid) ∧
    (0 ≤ (Particle.reset sampleCanvas sampleDraws Particle.blank).size ∧
      (Particle.reset sampleCanvas sampleDraws Particle.blank).size < 2) :=
  ⟨⟨by decide, by decide, by norm_num [Draws.valid, unitInterval, sampleDraws]⟩,
    (reset_bounds sampleCanvas sampleDraws Particle.blank (by decide) (by decide)
      (by norm_num [Draws.valid, unitInterval, sampleDraws])).1⟩

/-- C9 (draw on reachable states): for every particle state reachable from a
`reset()` with draws in `[0, 1)` by any number of updates and resets, `draw()`
issues fillStyle, beginPath, arc, fill, the radius passed to `arc` is the
particle's size and is non-negative, and the fill colour is one of the two
palette values. -/
theorem draw_radius_nonneg (p : Particle) (h : Reachable p) :
    (∀ trace : List Effect,
      p.draw trace =
        trace ++ [Effect.fillStyle p.color, Effect.beginPath,
          Effect.arc p.x p.y p.size Angle.zero Angle.twoPi, Effect.fill]) ∧
    (∀ x y r a b, Effect.arc x y r a b ∈ p.drawCalls → r = p.size ∧ 0 ≤ r) ∧
    (∀ c, Effect.fillStyle c ∈ p.drawCalls → c ∈ palette) ∧
    0 ≤ p.size ∧ p.color ∈ palette := by
  have key : 0 ≤ p.size ∧ p.color ∈ palette := by
    induction h with
    | reset canvas d q hd =>
      obtain ⟨-, -, ⟨hs0, -⟩, -⟩ := hd
      refine ⟨?_, ?_⟩
      · show 0 ≤ d.forSize * 2
        linarith
      · show (if d.forColor > 1 / 2 then "#00f3ff" else "#ffea00") ∈ palette
        by_cases hc : d.forColor > 1 / 2
        · rw [if_pos hc]
          simp [palette]
        · rw [if_neg hc]
          simp [palette]
    | update canvas q _ ih => exact ih
  refine ⟨fun _ => rfl, ?_, ?_, key⟩
  · intro x y r a b hmem
    simp only [Particle.drawCalls, List.mem_cons, List.mem_singleton, Effect.arc.injEq,
      reduceCtorEq, false_or, or_false, List.not_mem_nil] at hmem
    obtain ⟨-, -, hr, -, -⟩ := hmem
    rw [hr]
    exact ⟨rfl, key.1⟩
  · intro c hmem
    simp only [Particle.drawCalls, List.mem_cons, List.mem_singleton, Effect.fillStyle.injEq,
      reduceCtorEq, false_or, or_false, List.not_mem_nil] at hmem
    rw [hmem]
    exact key.2

/-- Witness of C9: the sample particle after a reset and two updates. -/
theorem draw_radius_nonneg_witness :
    Reachable (((Particle.reset sampleCanvas sampleDraws Particle.blank).update
        sampleCanvas).update sampleCanvas) ∧
    0 ≤ (((Particle.reset sampleCanvas sampleDraws Particle.blank).update
        sampleCanvas).update sampleCanvas).size :=
  ⟨Reachable.update _ _ (Reachable.update _ _ (Reachable.reset _ _ _
      (by norm_num [Draws.valid, unitInterval, sampleDraws]))),
    (draw_radius_nonneg _ (Reachable.update _ _ (Reachable.update _ _ (Reachable.reset _ _ _
      (by norm_num [Draws.valid, unitInterval, sampleDraws]))))).2.2.2.1⟩

/-! ## Lemmas on the field and the loop -/

theorem forEachParticle_eq (canvas : Canvas) (ps : List Particle) (trace : List Effect) :
    forEachParticle canvas ps trace =
      (ps.map (Particle.update canvas),
        trace ++ (ps.map (Particle.update canvas)).flatMap Particle.drawCalls) := by
  induction ps generalizing trace with
  | nil => simp [forEachParticle]
  | cons p rest ih =>
    simp [forEachParticle, ih, Particle.draw, List.append_assoc]

theorem countP_drawCalls_isArc (ps : List Particle) :
    (ps.flatMap Particle.drawCalls).countP Effect.isArc = ps.length := by
  induction ps with
  | nil => rfl
  | cons p rest ih =>
    rw [List.flatMap_cons, List.countP_append, ih]
    simp [Particle.drawCalls, List.countP_cons, Effect.isArc, Nat.add_comm]

theorem countP_drawCalls_isClear (ps : List Particle) :
    (ps.flatMap Particle.drawCalls).countP Effect.isClear = 0 := by
  induction ps with
  | nil => rfl
  | cons p rest ih =>
    rw [List.flatMap_cons, List.countP_append, ih]
    simp [Particle.drawCalls, List.countP_cons, Effect.isClear]

theorem countP_drawCalls_isFrameRequest (ps : List Particle) :
    (ps.flatMap Particle.drawCalls).countP Effect.isFrameRequest = 0 := by
  induction ps with
  | nil => rfl
  | cons p rest ih =>
    rw [List.flatMap_cons, List.countP_append, ih]
    simp [Particle.drawCalls, List.countP_cons, Effect.isFrameRequest]

theorem animateParticles_mobile (s : World) (h : s.isMobile = true) :
    animateParticles s = s := by
  simp [animateParticles, h]

theorem animateParticles_desktop (s : World) (h : s.isMobile = false) :
    animateParticles s =
      { s with
        particles := s.particles.map (Particle.update s.canvas)
        trace := s.trace ++ (Effect.clearRect 0 0 s.canvas.width s.canvas.height ::
          ((s.particles.map (Particle.update s.canvas)).flatMap Particle.drawCalls ++
            [Effect.requestAnimationFrame])) } := by
  simp [animateParticles, h, forEachParticle_eq, List.append_assoc]

theorem animateParticles_length (s : World) :
    (animateParticles s).particles.length = s.particles.length := by
  cases h : s.isMobile
  · rw [animateParticles_desktop s h]
    simp
  · rw [animateParticles_mobile s h]

theorem animateParticles_isMobile (s : World) :
    (animateParticles s).isMobile = s.isMobile := by
  cases h : s.isMobile
  · rw [animateParticles_desktop s h]
    exact h
  · rw [animateParticles_mobile s h]
    exact h

theorem onResize_length (s : World) : (onResize s).particles.length = s.particles.length := by
  cases h : s.isMobile <;> simp [onResize, resizeCanvas, h]

theorem onResize_isMobile (s : World) : (onResize s).isMobile = s.isMobile := by
  cases h : s.isMobile <;> simp [onResize, resizeCanvas, h]

theorem handle_length (s : World) (e : HostEvent) :
    (handle s e).particles.length = s.particles.length := by
  cases e with
  | frame => exact animateParticles_length s
  | resize window => exact onResize_length _

theorem handleAll_length (events : List HostEvent) (s : World) :
    (handleAll s events).particles.length = s.particles.length := by
  induction events generalizing s with
  | nil => rfl
  | cons e rest ih =>
    show (handleAll (handle s e) rest).particles.length = s.particles.length
    rw [ih, handle_length]

theorem pushParticles_spec (n : ℕ) (s : World) :
    (pushParticles n s).particles.length = s.particles.length + n ∧
    (pushParticles n s).isMobile = s.isMobile ∧
    (pushParticles n s).canvas = s.canvas ∧
    (pushParticles n s).trace = s.trace ∧
    (pushParticles n s).window = s.window := by
  induction n generalizing s with
  | zero => exact ⟨rfl, rfl, rfl, rfl, rfl⟩
  | succ n ih =>
    obtain ⟨h1, h2, h3, h4, h5⟩ := ih (pushParticle s)
    refine ⟨?_, h2, h3, h4, h5⟩
    show (pushParticles n (pushParticle s)).particles.length = s.particles.length + (n + 1)
    rw [h1]
    simp only [pushParticle, List.length_append, List.length_singleton]
    omega

theorem initParticles_mobile (s : World) (h : s.isMobile = true) : initParticles s = s := by
  simp [initParticles, h]

/-- The state of `initParticles` just before its final call of
`animateParticles`, on a desktop state. -/
theorem initParticles_desktop (s : World) (h : s.isMobile = false) :
    initParticles s =
      animateParticles (pushParticles 50 { resizeCanvas s with particles := [] }) := by
  simp [initParticles, h]

theorem filled_spec (s : World) (h : s.isMobile = false) :
    (pushParticles 50 { resizeCanvas s with particles := [] }).particles.length = 50 ∧
    (pushParticles 50 { resizeCanvas s with particles := [] }).isMobile = false ∧
    (pushParticles 50 { resizeCanvas s with particles := [] }).canvas =
      { width := s.window.innerWidth, height := s.window.innerHeight } ∧
    (pushParticles 50 { resizeCanvas s with particles := [] }).trace = s.trace := by
  obtain ⟨h1, h2, h3, h4, -⟩ := pushParticles_spec 50 { resizeCanvas s with particles := [] }
  refine ⟨?_, ?_, ?_, ?_⟩
  · rw [h1]
    rfl
  · rw [h2]
    exact h
  · rw [h3]
    rfl
  · rw [h4]
    rfl

theorem initParticles_length (s : World) (h : s.isMobile = false) :
    (initParticles s).particles.length = 50 := by
  rw [initParticles_desktop s h, animateParticles_length]
  exact (filled_spec s h).1

theorem initParticles_isMobile (s : World) : (initParticles s).isMobile = s.isMobile := by
  cases h : s.isMobile
  · rw [initParticles_desktop s h, animateParticles_isMobile]
    exact (filled_spec s h).2.1
  · rw [initParticles_mobile s h]
    exact h

theorem emitted_desktop (s : World) (h : s.isMobile = false) :
    emitted s (animateParticles s) =
      Effect.clearRect 0 0 s.canvas.width s.canvas.height ::
        ((s.particles.map (Particle.update s.canvas)).flatMap Particle.drawCalls ++
          [Effect.requestAnimationFrame]) := by
  rw [animateParticles_desktop s h]
  exact List.drop_left _ _

theorem tick_counts (canvas : Canvas) (ps : List Particle) :
    (Effect.clearRect 0 0 canvas.width canvas.height ::
        (ps.flatMap Particle.drawCalls ++ [Effect.requestAnimationFrame])).countP
      Effect.isClear = 1 ∧
    (Effect.clearRect 0 0 canvas.width canvas.height ::
        (ps.flatMap Particle.drawCalls ++ [Effect.requestAnimationFrame])).countP
      Effect.isArc = ps.length ∧
    (Effect.clearRect 0 0 canvas.width canvas.height ::
        (ps.flatMap Particle.drawCalls ++ [Effect.requestAnimationFrame])).countP
      Effect.isFrameRequest = 1 := by
  refine ⟨?_, ?_, ?_⟩
  · rw [List.countP_cons, List.countP_append, countP_drawCalls_isClear]
    simp [Effect.isClear]
  · rw [List.countP_cons, List.countP_append, countP_drawCalls_isArc]
    simp [Effect.isArc]
  · rw [List.countP_cons, List.countP_append, countP_drawCalls_isFrameRequest]
    simp [Effect.isFrameRequest]

theorem animateParticles_counts (t : World) (h : t.isMobile = false) :
    (animateParticles t).canvas = t.canvas ∧
    (animateParticles t).trace.countP Effect.isClear = t.trace.countP Effect.isClear + 1 ∧
    (animateParticles t).trace.countP Effect.isArc =
      t.trace.countP Effect.isArc + t.particles.length ∧
    (animateParticles t).trace.countP Effect.isFrameRequest =
      t.trace.countP Effect.isFrameRequest + 1 := by
  have hcounts := tick_counts t.canvas (t.particles.map (Particle.update t.canvas))
  rw [List.length_map] at hcounts
  rw [animateParticles_desktop t h]
  refine ⟨rfl, ?_, ?_, ?_⟩
  · show (t.trace ++ _).countP Effect.isClear = _
    rw [List.countP_append, hcounts.1]
  · show (t.trace ++ _).countP Effect.isArc = _
    rw [List.countP_append, hcounts.2.1]
  · show (t.trace ++ _).countP Effect.isFrameRequest = _
    rw [List.countP_append, hcounts.2.2]

theorem handle_mobile (s : World) (h : s.isMobile = true) (e : HostEvent) :
    (handle s e).isMobile = true ∧ (handle s e).particles = s.particles ∧
    (handle s e).canvas = s.canvas ∧ (handle s e).trace = s.trace := by
  cases e with
  | frame =>
    show (animateParticles s).isMobile = true ∧ (animateParticles s).particles = s.particles ∧
      (animateParticles s).canvas = s.canvas ∧ (animateParticles s).trace = s.trace
    rw [animateParticles_mobile s h]
    exact ⟨h, rfl, rfl, rfl⟩
  | resize window =>
    simp [handle, onResize, h]

theorem handleAll_mobile (events : List HostEvent) (s : World) (h : s.isMobile = true) :
    (handleAll s events).particles = s.particles ∧
    (handleAll s events).canvas = s.canvas ∧ (handleAll s events).trace = s.trace := by
  induction events generalizing s with
  | nil => exact ⟨rfl, rfl, rfl⟩
  | cons e rest ih =>
    obtain ⟨h1, h2, h3, h4⟩ := handle_mobile s h e
    obtain ⟨k1, k2, k3⟩ := ih (handle s e) h1
    exact ⟨k1.trans h2, k2.trans h3, k3.trans h4⟩

/-! ## Claims on the field, the loop and the script -/

/-- C5 (device gate): for every viewport at startup the low-power flag is true
exactly when the width is below 768.  When it is below 768, `initParticles`,
`animateParticles` and the resize handler return the state unchanged, and from
the state at startup the particle list stays empty, the canvas keeps its
dimensions and the trace stays empty under every sequence of frames and resizes.
When it is 768 or more, `initParticles` from the state at startup sizes the
canvas to the viewport, builds 50 particles, clears once, draws each particle
and requests one frame. -/
theorem device_gate (page : Page) (canvas : Canvas) (s : World) :
    (detectMobile page.window = true ↔ page.window.innerWidth < 768) ∧
    (bootWorld page canvas).isMobile = detectMobile page.window ∧
    (∃ registered, runScript { page with particleCanvas := some canvas } =
      Except.ok { world := initParticles (bootWorld page canvas), registered := registered }) ∧
    (if page.window.innerWidth < 768 then
      (initParticles { s with isMobile := detectMobile page.window } =
          { s with isMobile := detectMobile page.window } ∧
        animateParticles { s with isMobile := detectMobile page.window } =
          { s with isMobile := detectMobile page.window } ∧
        onResize { s with isMobile := detectMobile page.window } =
          { s with isMobile := detectMobile page.window }) ∧
      initParticles (bootWorld page canvas) = bootWorld page canvas ∧
      ∀ events : List HostEvent,
        (handleAll (initParticles (bootWorld page canvas)) events).particles = [] ∧
        (handleAll (initParticles (bootWorld page canvas)) events).canvas = canvas ∧
        (handleAll (initParticles (bootWorld page canvas)) events).trace = []
    else
      (initParticles (bootWorld page canvas)).particles.length = 50 ∧
      (initParticles (bootWorld page canvas)).canvas =
        { width := page.window.innerWidth, height := page.window.innerHeight } ∧
      (initParticles (bootWorld page canvas)).trace.countP Effect.isClear = 1 ∧
      (initParticles (bootWorld page canvas)).trace.countP Effect.isArc = 50 ∧
      (initParticles (bootWorld page canvas)).trace.countP Effect.isFrameRequest = 1) := by
  have hflag : detectMobile page.window = true ↔ page.window.innerWidth < 768 := by
    simp [detectMobile]
  refine ⟨hflag, rfl, ⟨_, rfl⟩, ?_⟩
  split_ifs with hw
  · have hm : detectMobile page.window = true := hflag.mpr hw
    have hb : (bootWorld page canvas).isMobile = true := hm
    refine ⟨⟨?_, ?_, ?_⟩, initParticles_mobile _ hb, fun events => ?_⟩
    · exact initParticles_mobile _ hm
    · exact animateParticles_mobile _ hm
    · simp [onResize, hm]
    · rw [initParticles_mobile _ hb]
      exact handleAll_mobile events _ hb
  · have hm : detectMobile page.window = false := by
      cases hd : detectMobile page.window
      · rfl
      · exact absurd (hflag.mp hd) hw
    have hb : (bootWorld page canvas).isMobile = false := hm
    obtain ⟨f1, f2, f3, f4⟩ := filled_spec (bootWorld page canvas) hb
    have hinit := initParticles_desktop (bootWorld page canvas) hb
    rw [hinit]
    generalize pushParticles 50 { resizeCanvas (bootWorld page canvas) with particles := [] } = t
      at f1 f2 f3 f4
    have f5 : t.trace = [] := f4
    obtain ⟨g1, g2, g3, g4⟩ := animateParticles_counts t f2
    rw [f5] at g2 g3 g4
    refine ⟨?_, ?_, ?_, ?_, ?_⟩
    · rw [animateParticles_length, f1]
    · rw [g1, f3]
      rfl
    · rw [g2]
      rfl
    · rw [g3, f1]
      rfl
    · rw [g4]
      rfl

/-- Witness of C5 at the two widths next to the threshold: at 767 the flag is set
and `initParticles` returns the state at startup unchanged; at 768 the flag is
clear and `initParticles` builds 50 particles and requests one frame. -/
theorem device_gate_witness :
    (detectMobile (samplePage 767).window = true ∧
      initParticles (bootWorld (samplePage 767) { width := 300, height := 150 }) =
        bootWorld (samplePage 767) { width := 300, height := 150 }) ∧
    (detectMobile (samplePage 768).window = false ∧
      (initParticles (bootWorld (samplePage 768) { width := 300, height := 150 })).particles.length
        = 50 ∧
      (initParticles (bootWorld (samplePage 768) { width := 300, height := 150 })).trace.countP
        Effect.isFrameRequest = 1) :=
  ⟨⟨by decide,
      ((if_pos (by decide : (samplePage 767).window.innerWidth < 768)).mp
        (device_gate (samplePage 767) { width := 300, height := 150 } sampleWorld).2.2.2).2.1⟩,
    ⟨by decide,
      ((if_neg (by decide : ¬ (samplePage 768).window.innerWidth < 768)).mp
        (device_gate (samplePage 768) { width := 300, height := 150 } sampleWorld).2.2.2).1,
      ((if_neg (by decide : ¬ (samplePage 768).window.innerWidth < 768)).mp
        (device_gate (samplePage 768) { width := 300, height := 150 } sampleWorld).2.2.2).2.2.2.2⟩⟩

/-- C6 (field size invariant): on a non-low-power state `initParticles` leaves
exactly 50 particles whatever the list held before, also when it is run again
on its own result; `animateParticles` and the resize handler leave the number of
particles unchanged; hence after any sequence of frames and resizes that follows
the initialisation the field still holds 50 particles. -/
theorem field_size_invariant (s : World) (h : s.isMobile = false) :
    (initParticles s).particles.length = 50 ∧
    (initParticles (initParticles s)).particles.length = 50 ∧
    (animateParticles s).particles.length = s.particles.length ∧
    (∀ window : Window,
      (handle s (HostEvent.resize window)).particles.length = s.particles.length) ∧
    (∀ events : List HostEvent,
      (handleAll (initParticles s) events).particles.length = 50) := by
  have h1 := initParticles_length s h
  have h2 : (initParticles s).isMobile = false := by
    rw [initParticles_isMobile]
    exact h
  refine ⟨h1, initParticles_length _ h2, animateParticles_length s, ?_, ?_⟩
  · intro window
    exact handle_length s _
  · intro events
    rw [handleAll_length]
    exact h1

/-- Witness of C6 on the sample desktop state, which holds two particles. -/
theorem field_size_invariant_witness :
    sampleWorld.isMobile = false ∧ (initParticles sampleWorld).particles.length = 50 :=
  ⟨rfl, (field_size_invariant sampleWorld rfl).1⟩

/-- C8 (tick structure): on a non-low-power state one invocation of
`animateParticles` adds to the trace one `clearRect(0, 0, width, height)` first,
then for each particle in order the four draw calls of the already updated
particle, then one `requestAnimationFrame`; every particle is replaced by its
update; so the invocation makes one clear, n draws and one frame request.  Inside
the iteration the head particle is updated and drawn before the rest of the list
is visited. -/
theorem tick_structure (s : World) (h : s.isMobile = false) :
    (animateParticles s).particles = s.particles.map (Particle.update s.canvas) ∧
    (animateParticles s).trace =
      s.trace ++ (Effect.clearRect 0 0 s.canvas.width s.canvas.height ::
        ((s.particles.map (Particle.update s.canvas)).flatMap Particle.drawCalls ++
          [Effect.requestAnimationFrame])) ∧
    (emitted s (animateParticles s)).countP Effect.isClear = 1 ∧
    (emitted s (animateParticles s)).head? =
      some (Effect.clearRect 0 0 s.canvas.width s.canvas.height) ∧
    (emitted s (animateParticles s)).countP Effect.isArc = s.particles.length ∧
    (emitted s (animateParticles s)).countP Effect.isFrameRequest = 1 ∧
    (emitted s (animateParticles s)).getLast? = some Effect.requestAnimationFrame ∧
    (∀ (p : Particle) (rest : List Particle) (trace : List Effect),
      forEachParticle s.canvas (p :: rest) trace =
        (p.update s.canvas ::
            (forEachParticle s.canvas rest ((p.update s.canvas).draw trace)).1,
          (forEachParticle s.canvas rest ((p.update s.canvas).draw trace)).2)) := by
  have hcounts := tick_counts s.canvas (s.particles.map (Particle.update s.canvas))
  rw [List.length_map] at hcounts
  have hem := emitted_desktop s h
  refine ⟨?_, ?_, ?_, ?_, ?_, ?_, ?_, fun _ _ _ => rfl⟩
  · rw [animateParticles_desktop s h]
  · rw [animateParticles_desktop s h]
  · rw [hem]
    exact hcounts.1
  · rw [hem]
    rfl
  · rw [hem]
    exact hcounts.2.1
  · rw [hem]
    exact hcounts.2.2
  · rw [hem, ← List.cons_append, List.getLast?_append]
    rfl

/-- Witness of C8 on the sample desktop state: two particles, two draws. -/
theorem tick_structure_witness :
    sampleWorld.isMobile = false ∧
    (emitted sampleWorld (animateParticles sampleWorld)).countP Effect.isArc = 2 :=
  ⟨rfl, (tick_structure sampleWorld rfl).2.2.2.2.1⟩

/-- C10 (the code at the failing input): when the page has no element with id
'particle-canvas', the script stops with the exception raised at line 32, for
every viewport and every other content of the page; it does not reach the
registration of the load listener, the tilt initialisation or the menu
handlers. -/
theorem runScript_without_canvas (page : Page) :
    runScript { page with particleCanvas := none } = Except.error ScriptError.nullCanvas ∧
    ∀ session : Session, runScript { page with particleCanvas := none } ≠ Except.ok session := by
  refine ⟨rfl, fun session hEq => ?_⟩
  have herr : runScript { page with particleCanvas := none } =
      Except.error ScriptError.nullCanvas := rfl
  rw [herr] at hEq
  cases hEq

end ParticleBackground
